import Mathlib

/-!
# Verification of the WebSocket ADB bridge

A shallow embedding, in Lean 4, of `websocket-adb-bridge.py`: a bridge that
forwards opaque byte payloads between one upstream WebSocket session and a set
of locally-accepted TCP clients.  Payload bytes are modelled as `Nat`, byte
strings as `List Nat`, Python strings as `List Char`, and the mutable
`self.clients` Python list as a Lean `List Nat` of client identifiers (each
accepted socket is a distinct Python object, so identifiers stand in for
object identity).  Each loop of the Python source is embedded as a structurally
recursive function over the list of I/O events the loop observes; every
`try/except: pass` in the source is embedded as the corresponding total
branch.
-/

set_option autoImplicit false

namespace WSBridge

/-! ## Startup configuration (`main`, lines 207-230)

`main` reads `GENYMOTION_WEBSOCKET_URL` from the environment; if that is
`None` or empty (`if not websocket_url`), it scans
`/tmp/genymotion_connection.env` line by line for the first line containing
the substring `GENYMOTION_ADB_URL=` or `publicAdbUrl=`, takes
`line.split('=', 1)[1].strip().strip('"')`, and stops at that line.
A missing file (`FileNotFoundError`) is swallowed.  If the resulting value is
still falsy it returns 1; if it does not start with `wss://` it returns 1;
otherwise it builds the bridge and connects. -/

/-- A Python string. -/
abbrev Str := List Char

/-- Python truthiness test `if not websocket_url` on an optional string:
`None` and the empty string are falsy. -/
def strFalsy : Option Str → Bool
  | none => true
  | some s => s.isEmpty

/-- Python `needle in hay` substring containment. -/
def occursIn (needle : Str) : Str → Bool
  | [] => needle.isEmpty
  | c :: rest => needle.isPrefixOf (c :: rest) || occursIn needle rest

/-- Python `s.split('=', 1)[1]`: everything after the first `'='`.  On a
string with no `'='` the Python expression raises `IndexError`; it is only
evaluated on lines that contain `'='` (they matched a key ending in `'='`),
where this total function agrees with it. -/
def afterFirstEq : Str → Str
  | [] => []
  | c :: rest => if c = '=' then rest else afterFirstEq rest

/-- Python's whitespace class for `str.strip()` with no argument. -/
def pySpace (c : Char) : Bool :=
  c = ' ' || c = '\t' || c = '\n' || c = '\r' || c = '\x0b' || c = '\x0c'

/-- Python `s.strip(...)` restricted to a character class `p`: drop matching
characters from both ends. -/
def pyStrip (p : Char → Bool) (s : Str) : Str :=
  ((s.dropWhile p).reverse.dropWhile p).reverse

/-- The first key `main` looks for in a connection-file line. -/
def adbUrlKey : Str := "GENYMOTION_ADB_URL=".toList

/-- The second key `main` looks for in a connection-file line. -/
def publicAdbUrlKey : Str := "publicAdbUrl=".toList

/-- Line 215: does this connection-file line match either key (substring
containment, as in Python `'GENYMOTION_ADB_URL=' in line or
'publicAdbUrl=' in line`)? -/
def lineMatches (line : Str) : Bool :=
  occursIn adbUrlKey line || occursIn publicAdbUrlKey line

/-- Line 216: the value extracted from a matching line:
`line.split('=', 1)[1].strip().strip('"')`. -/
def extractValue (line : Str) : Str :=
  pyStrip (fun c => c = '"') (pyStrip pySpace (afterFirstEq line))

/-- Lines 214-217: scan the connection file; the first matching line wins and
the loop breaks immediately after it. -/
def findUrlInFile : List Str → Option Str
  | [] => none
  | line :: rest =>
    if lineMatches line then some (extractValue line) else findUrlInFile rest

/-- Lines 210-219: the value of `websocket_url` after the discovery block.
`env` is `os.environ.get('GENYMOTION_WEBSOCKET_URL')`; `file` is `some` of
the file's lines, or `none` when opening raises `FileNotFoundError` (which
the source swallows, leaving `websocket_url` unchanged). -/
def discoverUrl (env : Option Str) (file : Option (List Str)) : Option Str :=
  if strFalsy env then
    match file with
    | none => env
    | some lines =>
      match findUrlInFile lines with
      | some v => some v
      | none => env
  else env

/-- Specification-side description of the file scan, written from the spec's
words, for comparison with `findUrlInFile`: the value of the first line
matching either key ("first match wins"). -/
def specFirstMatch (lines : List Str) : Option Str :=
  ((lines.filter (fun l => lineMatches l)).head?).map extractValue

/-- Python `s.startswith('wss://')`. -/
def hasWssScheme (s : Str) : Bool :=
  "wss://".toList.isPrefixOf s

/-- How `main` can proceed after the configuration block (lines 221-241):
return 1 because no URL was found (line 223), return 1 because the URL does
not use the `wss://` scheme (line 230), or reach the point where the bridge
object is created and a network connection is attempted (lines 238-241). -/
inductive MainOutcome
  | exitNoUrl
  | exitBadScheme (url : Str)
  | runBridge (url : Str)
deriving DecidableEq, Repr

/-- Lines 210-241: the decision `main` makes from the environment variable and
the connection file, up to (but not including) the first network operation. -/
def mainConfig (env : Option Str) (file : Option (List Str)) : MainOutcome :=
  let url := discoverUrl env file
  if strFalsy url then .exitNoUrl
  else
    match url with
    | none => .exitNoUrl
    | some u => if hasWssScheme u then .runBridge u else .exitBadScheme u

/-- The exit code `main` returns before any connection attempt: `some 1` for
both early-exit branches, `none` once `runBridge` (and hence
`connect_websocket`) is reached. -/
def exitBeforeConnect : MainOutcome → Option Nat
  | .exitNoUrl => some 1
  | .exitBadScheme _ => some 1
  | .runBridge _ => none

/-! ## Client → upstream (`handle_client`, lines 85-119)

Each accepted client gets its own loop: `client_socket.recv(8192)` with a
timeout; `socket.timeout` continues the loop, an empty read (`if not data`)
breaks, any other exception breaks, and a successful chunk is forwarded
verbatim by `await self.websocket.send(data)`.  We embed the loop as a
function over the list of read events the socket produces, returning the
list of payloads handed to `websocket.send`, in order. -/

/-- One byte payload, opaque to the bridge. -/
abbrev Bytes := List Nat

/-- One observed outcome of `client_socket.recv(8192)` in `handle_client`:
a `socket.timeout`, a chunk of data (empty = orderly peer disconnect), or
any other exception. -/
inductive ClientReadEvent
  | timeout
  | recv (data : Bytes)
  | readError
deriving DecidableEq, Repr

/-- Lines 92-108: the sequence of payloads `handle_client` passes to
`self.websocket.send`, given the sequence of read events.  `timeout`
continues, `recv []` (`if not data`) breaks, `readError` breaks, and a
non-empty chunk is sent verbatim and the loop continues.  (`self.running and
self.websocket` stay truthy throughout a normal run; the run-flag aspect is
modelled separately in `BridgeState`.) -/
def handle_client_sends : List ClientReadEvent → List Bytes
  | [] => []
  | .timeout :: es => handle_client_sends es
  | .recv [] :: _ => []
  | .recv d :: es => d :: handle_client_sends es
  | .readError :: _ => []

/-- Is this read event a `socket.timeout`? -/
def isTimeoutEv : ClientReadEvent → Bool
  | .timeout => true
  | _ => false

/-- Is this read event a successful, non-empty chunk? -/
def isDataEv : ClientReadEvent → Bool
  | .recv (_ :: _) => true
  | _ => false

/-- The chunk carried by a read event (empty for non-`recv` events). -/
def payloadOf : ClientReadEvent → Bytes
  | .recv d => d
  | _ => []

/-- Specification-side description of the bytes forwarded upstream, written
from the spec's words: the chunks successfully read from the client, in
order, up to the first disconnect or error — ignoring timeouts, stopping at
the first event that is not a non-empty chunk. -/
def specChunksRead (es : List ClientReadEvent) : List Bytes :=
  ((es.filter (fun e => !isTimeoutEv e)).takeWhile isDataEv).map payloadOf

/-! ## Upstream → clients (`websocket_forwarder`, lines 121-157)

The single fan-out loop receives one WebSocket message at a time
(`asyncio.wait_for(self.websocket.recv(), timeout=2.0)`); a timeout
continues, `ConnectionClosed` breaks, any other exception breaks.  A received
message is written to every socket in the snapshot `self.clients[:]`; a
failing write removes that socket from the live list and closes it
(`remove` then `close`, both under `try/except: pass`, so if `remove` raises
`ValueError` the `close` is skipped), and the iteration over the snapshot
continues. -/

/-- Lines 133-145: the control flow of one fan-out of message `m` over
`snapshot = self.clients[:]` while `current` tracks the live `self.clients`
list.  `failing` is the set of client sockets whose `send` raises during this
round.  Returns the live list afterwards, the non-raising write attempts
`(client, payload)` in snapshot order — recording the whole message handed to
`send`, which is the loop's own (all-or-nothing) view of a write; see
`fanout_send` for the byte-level refinement of what the socket actually
accepts — and the sockets closed by the pruning branch. -/
def fanout (snapshot : List Nat) (current : List Nat) (failing : List Nat)
    (m : Bytes) : List Nat × List (Nat × Bytes) × List Nat :=
  match snapshot with
  | [] => (current, [], [])
  | c :: rest =>
    if c ∈ failing then
      if c ∈ current then
        let r := fanout rest (current.erase c) failing m
        (r.1, r.2.1, c :: r.2.2)
      else
        fanout rest current failing m
    else
      let r := fanout rest current failing m
      (r.1, (c, m) :: r.2.1, r.2.2)

/-- Outcome of one `client_socket.send(message)` call (line 137) on the
0.5-second-timeout socket: either the kernel accepts `k` bytes of the buffer
and `send` returns `k` — Python `socket.send` (unlike `sendall`) may accept
fewer bytes than the whole buffer, and line 137 discards the returned
count — or the call raises (`socket.timeout`, broken pipe, ...). -/
inductive SendOutcome
  | accepted (k : Nat)
  | raised
deriving DecidableEq, Repr

/-- Byte-level refinement of one fan-out round (lines 133-145): the same
control flow as `fanout`, but each write attempt records the bytes the
client's socket actually accepted, `m.take k`, instead of the whole message
handed to `send`.  A `send` that does not raise never reaches the pruning
branch, whatever count it returns — the loop ignores the count. -/
def fanout_send (snapshot : List Nat) (current : List Nat)
    (outcome : Nat → SendOutcome) (m : Bytes) :
    List Nat × List (Nat × Bytes) × List Nat :=
  match snapshot with
  | [] => (current, [], [])
  | c :: rest =>
    match outcome c with
    | .raised =>
      if c ∈ current then
        let r := fanout_send rest (current.erase c) outcome m
        (r.1, r.2.1, c :: r.2.2)
      else
        fanout_send rest current outcome m
    | .accepted k =>
      let r := fanout_send rest current outcome m
      (r.1, (c, m.take k) :: r.2.1, r.2.2)

/-- One observed outcome of the `await asyncio.wait_for(self.websocket.recv(),
timeout=2.0)` call: a timeout, a message (tagged with the clients whose
`send` will raise during its fan-out), `ConnectionClosed`, or any other
exception. -/
inductive UpstreamEvent
  | timeout
  | msg (m : Bytes) (failing : List Nat)
  | closed
  | recvError
deriving DecidableEq, Repr

/-- The observable result of running the fan-out loop: the live client list
when the loop ends, all successful deliveries in order, all sockets closed by
pruning, and whether the loop exited through the `ConnectionClosed` branch. -/
structure FwdResult where
  clients : List Nat
  deliveries : List (Nat × Bytes)
  pruned : List Nat
  sawClosed : Bool
deriving DecidableEq, Repr

/-- Lines 124-157: the fan-out loop over a sequence of upstream receive
events, starting from live client list `clients`. -/
def websocket_forwarder (clients : List Nat) : List UpstreamEvent → FwdResult
  | [] => ⟨clients, [], [], false⟩
  | .timeout :: es => websocket_forwarder clients es
  | .closed :: _ => ⟨clients, [], [], true⟩
  | .recvError :: _ => ⟨clients, [], [], false⟩
  | .msg m failing :: es =>
    let f := fanout clients clients failing m
    let r := websocket_forwarder f.1 es
    ⟨r.clients, f.2.1 ++ r.deliveries, f.2.2 ++ r.pruned, r.sawClosed⟩

/-- The messages the upstream session delivered before the loop terminated:
specification-side description of what every never-failing client should
receive. -/
def receivedMsgs : List UpstreamEvent → List Bytes
  | [] => []
  | .timeout :: es => receivedMsgs es
  | .closed :: _ => []
  | .recvError :: _ => []
  | .msg m _ :: es => m :: receivedMsgs es

/-- The payloads of the write attempts issued to one particular client, in
order. -/
def deliveredTo (c : Nat) (dels : List (Nat × Bytes)) : List Bytes :=
  (dels.filter (fun p => p.1 == c)).map Prod.snd

/-! ## Mutations of the active-client set

The three program points that mutate `self.clients`. -/

/-- Line 89: `self.clients.append(client_socket)` on a freshly accepted
socket. -/
def register_client (clients : List Nat) (c : Nat) : List Nat :=
  clients ++ [c]

/-- Lines 114-116 (the `finally` block of `handle_client`): close the socket,
then `if client_socket in self.clients: self.clients.remove(client_socket)`.
Python `list.remove` deletes the first occurrence; the membership guard makes
removal of an absent socket a no-op rather than a `ValueError`. -/
def handle_client_cleanup (clients : List Nat) (c : Nat) : List Nat :=
  if c ∈ clients then clients.erase c else clients

/-! ## Interleaving model for registration vs. fan-out

`handle_client` is spawned with `asyncio.create_task`; under asyncio's
single-threaded cooperative scheduling a task runs atomically between
`await` points.  The block of `handle_client` from its start through
`self.clients.append(client_socket)` and into its read loop contains no
`await`, and the fan-out body from returning out of
`await asyncio.wait_for(...)` through the whole `for client_socket in
self.clients[:]` loop contains no `await`; each is therefore one atomic
action with respect to the other.  We model a run of the bridge as an
arbitrary interleaving of these atomic actions. -/

/-- One atomic action of the bridge's tasks, as justified above: a client
task registering itself and starting its read loop, the fan-out task
processing one received message, or a client task's cleanup on loop exit. -/
inductive BridgeAction
  | register (c : Nat)
  | fanoutMsg (m : Bytes) (failing : List Nat)
  | clientExit (c : Nat)
deriving DecidableEq, Repr

/-- The shared state the actions touch: the live client list and the log of
deliveries made so far. -/
structure TraceState where
  clients : List Nat
  deliveries : List (Nat × Bytes)
deriving DecidableEq, Repr

/-- Effect of one atomic action on the shared state. -/
def stepAction (s : TraceState) : BridgeAction → TraceState
  | .register c => ⟨register_client s.clients c, s.deliveries⟩
  | .fanoutMsg m failing =>
    let f := fanout s.clients s.clients failing m
    ⟨f.1, s.deliveries ++ f.2.1⟩
  | .clientExit c => ⟨handle_client_cleanup s.clients c, s.deliveries⟩

/-- An arbitrary interleaving of atomic actions, executed in order. -/
def runTrace (s : TraceState) (as : List BridgeAction) : TraceState :=
  as.foldl stepAction s

/-! ## Bridge-level state and the `ConnectionClosed` reaction

Fields mirror the attributes of `WebSocketADBBridge` plus whether each loop
is still running.  `websocketSet` is Python truthiness of `self.websocket`
(the attribute keeps pointing at the websocket object even after the remote
side closes it, so it stays truthy). -/

structure BridgeState where
  running : Bool
  websocketSet : Bool
  forwarderActive : Bool
  listenerActive : Bool
  clients : List Nat
deriving DecidableEq, Repr

/-- Lines 149-151: the `except websockets.exceptions.ConnectionClosed` branch
of `websocket_forwarder` — log a warning and `break`.  The only state change
is that the fan-out loop stops; nothing assigns `self.running`, touches
`self.clients`, or signals `start_tcp_server`. -/
def forwarder_on_connection_closed (s : BridgeState) : BridgeState :=
  { s with forwarderActive := false }

/-- Line 67: the accept loop's continuation condition `while self.running`
(a `socket.timeout` on `accept` lands in `continue`). -/
def listener_polls_again (s : BridgeState) : Bool :=
  s.running

/-- Line 92: a client read loop's continuation condition
`while self.running and self.websocket`. -/
def client_loop_continues (s : BridgeState) : Bool :=
  s.running && s.websocketSet

/-! ## `stop_bridge` (lines 180-205)

`stop_bridge` sets `self.running = False`, closes the server socket, closes
every socket in `self.clients[:]`, clears the list, and schedules
`self.websocket.close()`; every close sits under `try/except: pass`.
Closing an already-closed Python socket (or websocket) is a no-op, so we
track, per resource, whether a close has already happened, and report which
resources a call actually releases. -/

structure StopState where
  running : Bool
  serverSocketSet : Bool
  serverClosed : Bool
  clients : List Nat
  closedSocks : List Nat
  websocketSet : Bool
  websocketClosed : Bool
deriving DecidableEq, Repr

/-- Lines 193-197: close every socket in `self.clients[:]`.  `closedSo` is
the set of client sockets already closed (closing those again releases
nothing); returns the updated set and the sockets actually released, in
order. -/
def closeClientSocks (closedSo : List Nat) : List Nat → List Nat × List Nat
  | [] => (closedSo, [])
  | c :: rest =>
    if c ∈ closedSo then closeClientSocks closedSo rest
    else
      let r := closeClientSocks (c :: closedSo) rest
      (r.1, c :: r.2)

/-- What one `stop_bridge` call released: the client sockets actually closed,
and whether the server socket / websocket transitioned to closed on this
call. -/
structure StopReleases where
  clientSocks : List Nat
  serverSock : Bool
  websocketSock : Bool
deriving DecidableEq, Repr

/-- Lines 180-205: `stop_bridge` as a state transformer, also reporting which
resources this particular call released. -/
def stop_bridge (s : StopState) : StopState × StopReleases :=
  let serverRel := s.serverSocketSet && !s.serverClosed
  let serverClosed := s.serverClosed || s.serverSocketSet
  let cl := closeClientSocks s.closedSocks s.clients
  let wsRel := s.websocketSet && !s.websocketClosed
  let wsClosed := s.websocketClosed || s.websocketSet
  (⟨false, s.serverSocketSet, serverClosed, [], cl.1, s.websocketSet, wsClosed⟩,
   ⟨cl.2, serverRel, wsRel⟩)

/-! ## Helper lemmas -/

/-- When no line of the file matches either key, the scan yields nothing. -/
theorem findUrlInFile_eq_none_of_no_match {lines : List Str}
    (h : ∀ line ∈ lines, lineMatches line = false) :
    findUrlInFile lines = none := by
  induction lines with
  | nil => rfl
  | cons l ls ih =>
    have hl : lineMatches l = false := h l (List.mem_cons_self l ls)
    simp only [findUrlInFile, hl, if_false, Bool.false_eq_true]
    exact ih fun line hline => h line (List.mem_cons_of_mem l hline)

/-- The source's scan agrees with the spec-side "first matching line wins"
description. -/
theorem findUrlInFile_eq_specFirstMatch (lines : List Str) :
    findUrlInFile lines = specFirstMatch lines := by
  induction lines with
  | nil => rfl
  | cons l ls ih =>
    by_cases hl : lineMatches l = true
    · simp [findUrlInFile, specFirstMatch, hl]
    · simp only [Bool.not_eq_true] at hl
      simp [findUrlInFile, specFirstMatch, hl] at ih ⊢
      exact ih

/-- The client read loop forwards exactly the chunks it reads, verbatim and
in order: the embedding of lines 92-108 agrees with the spec-side
description. -/
theorem handle_client_sends_eq_spec (es : List ClientReadEvent) :
    handle_client_sends es = specChunksRead es := by
  induction es with
  | nil => rfl
  | cons e es ih =>
    cases e with
    | timeout =>
      simpa [handle_client_sends, specChunksRead, isTimeoutEv] using ih
    | readError =>
      simp [handle_client_sends, specChunksRead, isTimeoutEv, isDataEv]
    | recv d =>
      cases d with
      | nil =>
        simp [handle_client_sends, specChunksRead, isTimeoutEv, isDataEv]
      | cons b bs =>
        simpa [handle_client_sends, specChunksRead, isTimeoutEv, isDataEv,
          payloadOf] using ih

/-- A fan-out round makes no delivery to a client outside its snapshot. -/
theorem fanout_no_delivery_of_not_mem {c : Nat} {m : Bytes}
    (snapshot current failing : List Nat) (hc : c ∉ snapshot) :
    (fanout snapshot current failing m).2.1.filter (fun p => p.1 == c) = [] := by
  induction snapshot generalizing current with
  | nil => rfl
  | cons a rest ih =>
    have hac : a ≠ c := fun h => hc (h ▸ List.mem_cons_self a rest)
    have hcr : c ∉ rest := fun h => hc (List.mem_cons_of_mem a h)
    by_cases ha : a ∈ failing
    · by_cases hcur : a ∈ current
      · simp only [fanout, if_pos ha, if_pos hcur]
        exact ih _ hcr
      · simp only [fanout, if_pos ha, if_neg hcur]
        exact ih _ hcr
    · simp only [fanout, if_neg ha]
      simpa [hac] using ih current hcr

/-- A fan-out round delivers the received message exactly once to each
snapshot member whose write does not fail (given the snapshot has no
duplicates). -/
theorem fanout_delivery_single {c : Nat} {m : Bytes} {snapshot : List Nat}
    (current failing : List Nat) (hnd : snapshot.Nodup) (hc : c ∈ snapshot)
    (hf : c ∉ failing) :
    (fanout snapshot current failing m).2.1.filter (fun p => p.1 == c)
      = [(c, m)] := by
  induction snapshot generalizing current with
  | nil => cases hc
  | cons a rest ih =>
    rcases List.mem_cons.mp hc with rfl | hcr
    · have hcnr : c ∉ rest := (List.nodup_cons.mp hnd).1
      simp only [fanout, if_neg hf]
      simp [fanout_no_delivery_of_not_mem rest current failing hcnr]
    · have hndr : rest.Nodup := (List.nodup_cons.mp hnd).2
      by_cases ha : a ∈ failing
      · by_cases hcur : a ∈ current
        · simp only [fanout, if_pos ha, if_pos hcur]
          exact ih _ hndr hcr
        · simp only [fanout, if_pos ha, if_neg hcur]
          exact ih _ hndr hcr
      · have hac : a ≠ c := fun h => ((List.nodup_cons.mp hnd).1) (h ▸ hcr)
        simp only [fanout, if_neg ha]
        simpa [hac] using ih current hndr hcr

/-- A fan-out round keeps every live client whose write does not fail. -/
theorem fanout_mem_clients {c : Nat} {m : Bytes} (snapshot : List Nat)
    (current failing : List Nat) (hc : c ∈ current) (hf : c ∉ failing) :
    c ∈ (fanout snapshot current failing m).1 := by
  induction snapshot generalizing current with
  | nil => exact hc
  | cons a rest ih =>
    by_cases ha : a ∈ failing
    · have hca : c ≠ a := fun h => hf (h ▸ ha)
      by_cases hcur : a ∈ current
      · simp only [fanout, if_pos ha, if_pos hcur]
        exact ih _ ((List.mem_erase_of_ne hca).mpr hc)
      · simp only [fanout, if_pos ha, if_neg hcur]
        exact ih _ hc
    · simp only [fanout, if_neg ha]
      exact ih _ hc

/-- A fan-out round only ever erases elements from the live list, so it
preserves freedom from duplicates. -/
theorem fanout_nodup {m : Bytes} (snapshot : List Nat)
    (current failing : List Nat) (h : current.Nodup) :
    (fanout snapshot current failing m).1.Nodup := by
  induction snapshot generalizing current with
  | nil => exact h
  | cons a rest ih =>
    by_cases ha : a ∈ failing
    · by_cases hcur : a ∈ current
      · simp only [fanout, if_pos ha, if_pos hcur]
        exact ih _ (h.erase a)
      · simp only [fanout, if_pos ha, if_neg hcur]
        exact ih _ h
    · simp only [fanout, if_neg ha]
      exact ih _ h

/-- Over a whole run of the fan-out loop, a client that is live at the start
and whose writes never raise has exactly the received messages issued to its
socket, in order (at the granularity of `send` calls; what the socket
accepts of each call is refined by `fanout_send`). -/
theorem forwarder_deliveredTo (es : List UpstreamEvent) (clients : List Nat)
    (c : Nat) (hnd : clients.Nodup) (hc : c ∈ clients)
    (hf : ∀ m f, UpstreamEvent.msg m f ∈ es → c ∉ f) :
    deliveredTo c (websocket_forwarder clients es).deliveries
      = receivedMsgs es := by
  induction es generalizing clients with
  | nil => rfl
  | cons e es ih =>
    cases e with
    | timeout =>
      simp only [websocket_forwarder, receivedMsgs]
      exact ih _ hnd hc fun m f hm => hf m f (List.mem_cons_of_mem _ hm)
    | closed => rfl
    | recvError => rfl
    | msg m f =>
      have hcf : c ∉ f := hf m f (List.mem_cons_self _ _)
      simp only [websocket_forwarder, receivedMsgs, deliveredTo,
        List.filter_append, List.map_append]
      rw [show ((fanout clients clients f m).2.1.filter
            (fun p => p.1 == c)) = [(c, m)] from
          fanout_delivery_single clients f hnd hc hcf]
      have ihr := ih (fanout clients clients f m).1
        (fanout_nodup clients clients f hnd)
        (fanout_mem_clients clients clients f hc hcf)
        (fun m' f' hm => hf m' f' (List.mem_cons_of_mem _ hm))
      simp only [deliveredTo] at ihr
      simp [ihr]

/-! ## Claims -/

/-- C4: if the environment variable is unset and the connection file is
missing or contains no line matching either key, `main` returns exit code 1
at the "URL not found" branch, before any network connection is attempted. -/
theorem c4_no_url_exits_one (file : Option (List Str))
    (h : file = none ∨
      ∃ lines, file = some lines ∧ ∀ line ∈ lines, lineMatches line = false) :
    mainConfig none file = .exitNoUrl ∧
      exitBeforeConnect (mainConfig none file) = some 1 := by
  have hurl : discoverUrl none file = none := by
    rcases h with h | ⟨lines, rfl, hnone⟩
    · subst h; rfl
    · simp [discoverUrl, strFalsy, findUrlInFile_eq_none_of_no_match hnone]
  refine ⟨?_, ?_⟩ <;> simp [mainConfig, hurl, strFalsy, exitBeforeConnect]

/-- Witness for C4 at a concrete file whose single line matches no key. -/
theorem c4_no_url_exits_one_witness :
    mainConfig none (some ["SOME_OTHER_KEY=abc".toList]) = .exitNoUrl ∧
      exitBeforeConnect (mainConfig none (some ["SOME_OTHER_KEY=abc".toList]))
        = some 1 :=
  c4_no_url_exits_one (some ["SOME_OTHER_KEY=abc".toList])
    (Or.inr ⟨["SOME_OTHER_KEY=abc".toList], rfl, by decide⟩)

/-- C5: whenever discovery yields a URL that does not start with `wss://`,
`main` returns exit code 1 and never reaches the branch that creates the
bridge and attempts a connection. -/
theorem c5_bad_scheme_exits_one (env : Option Str) (file : Option (List Str))
    (u : Str) (hu : discoverUrl env file = some u)
    (hscheme : hasWssScheme u = false) :
    exitBeforeConnect (mainConfig env file) = some 1 ∧
      ∀ v, mainConfig env file ≠ .runBridge v := by
  by_cases hempty : u.isEmpty = true
  · constructor
    · simp [mainConfig, hu, strFalsy, hempty, exitBeforeConnect]
    · intro v
      simp [mainConfig, hu, strFalsy, hempty]
  · simp only [Bool.not_eq_true] at hempty
    constructor
    · simp [mainConfig, hu, strFalsy, hempty, hscheme, exitBeforeConnect]
    · intro v
      simp [mainConfig, hu, strFalsy, hempty, hscheme]

/-- Witness for C5 with the environment variable set to a plaintext `ws://`
URL. -/
theorem c5_bad_scheme_exits_one_witness :
    exitBeforeConnect (mainConfig (some "ws://insecure".toList) none) = some 1 ∧
      ∀ v, mainConfig (some "ws://insecure".toList) none ≠ .runBridge v :=
  c5_bad_scheme_exits_one (some "ws://insecure".toList) none
    "ws://insecure".toList (by decide) (by decide)

/-- C7 counterexample: the connection file is parsed even though the
environment variable is present (set to the empty string), so "only if it is
absent is the connection file parsed" fails: discovery returns the file's
value while the environment value exists. -/
theorem c7_counterexample :
    discoverUrl (some []) (some ["publicAdbUrl=wss://b".toList])
        = some "wss://b".toList ∧
      (some ([] : Str)) ≠ (none : Option Str) := by
  exact ⟨by decide, by decide⟩

/-- C7 amended: discovery first consults the environment variable — whenever
it is set to a non-empty string that value wins and the file is ignored; only
when it is unset *or empty* is the connection file parsed, and the value then
taken is the first line matching either key (first match wins), split at the
first `'='` (and stripped). -/
theorem c7_amended_discovery (env : Option Str) (file : Option (List Str)) :
    (∀ u, env = some u → u.isEmpty = false → discoverUrl env file = some u) ∧
      (strFalsy env = true → discoverUrl env file =
        (match file with
         | none => env
         | some lines =>
           match specFirstMatch lines with
           | some v => some v
           | none => env)) := by
  constructor
  · rintro u rfl hu
    simp [discoverUrl, strFalsy, hu]
  · intro henv
    simp only [discoverUrl, henv, if_true]
    cases file with
    | none => rfl
    | some lines =>
      dsimp only
      rw [findUrlInFile_eq_specFirstMatch]

/-- Witness for C7's amended statement: a non-empty environment value wins
over a matching file, and with an empty environment value the first of two
matching lines wins. -/
theorem c7_amended_discovery_witness :
    discoverUrl (some "wss://env".toList) (some ["publicAdbUrl=wss://b".toList])
        = some "wss://env".toList ∧
      discoverUrl (some []) (some ["GENYMOTION_ADB_URL=wss://one".toList,
          "publicAdbUrl=wss://two".toList]) = some "wss://one".toList := by
  constructor
  · exact (c7_amended_discovery (some "wss://env".toList)
      (some ["publicAdbUrl=wss://b".toList])).1 "wss://env".toList rfl (by decide)
  · exact ((c7_amended_discovery (some []) (some
      ["GENYMOTION_ADB_URL=wss://one".toList,
       "publicAdbUrl=wss://two".toList])).2 (by decide)).trans (by decide)

/-- C1 (code bug): upstream→client forwarding is not byte-exact.  Line 137
calls `client_socket.send(message)` — not `sendall` — and discards its
return value; `socket.send` may accept only part of the buffer without
raising (e.g. a slow client whose TCP send buffer has room for part of the
message).  Evaluated at the failing input — a 3-byte message fanned out to
client 1 whose socket accepts only 2 bytes: the client is kept in the live
list, nothing is pruned or closed, and the loop's own all-or-nothing view
(`fanout`) records the whole message as written, yet only the strict prefix
`[7, 8]` of `[7, 8, 9]` reached the socket — the last byte is silently
dropped, contradicting "no byte is altered, dropped, or reordered".  (The
client→upstream half is byte-exact: `handle_client_sends_eq_spec`.) -/
theorem c1_partial_send_drops_bytes :
    (fanout_send [1] [1] (fun _ => .accepted 2) [7, 8, 9]).1 = [1] ∧
      (fanout_send [1] [1] (fun _ => .accepted 2) [7, 8, 9]).2.2 = [] ∧
      (fanout_send [1] [1] (fun _ => .accepted 2) [7, 8, 9]).2.1
        = [(1, [7, 8])] ∧
      (fanout [1] [1] [] [7, 8, 9]).2.1 = [(1, [7, 8, 9])] ∧
      ([7, 8] : Bytes) ≠ [7, 8, 9] :=
  ⟨rfl, rfl, rfl, rfl, by decide⟩

/-- With the single failing client outside the snapshot, a fan-out round
delivers to every snapshot member and removes nobody. -/
theorem fanout_all_deliver {x : Nat} {m : Bytes} :
    ∀ (snapshot current : List Nat), x ∉ snapshot →
      fanout snapshot current [x] m
        = (current, snapshot.map (fun c => (c, m)), []) := by
  intro snapshot
  induction snapshot with
  | nil => intro current _; rfl
  | cons a rest ih =>
    intro current hx
    have hax : a ∉ [x] := by
      simp only [List.mem_singleton]
      rintro rfl
      exact hx (List.mem_cons_self a rest)
    simp only [fanout, if_neg hax, ih _ fun h => hx (List.mem_cons_of_mem a h),
      List.map_cons]

/-- One fan-out round of message `m` in which exactly the write to `x` fails:
`x` is erased from the live list, its socket is closed when it was still
live, and every other snapshot member receives `m`, in snapshot order. -/
theorem fanout_single_failure {x : Nat} {m : Bytes} :
    ∀ (snapshot current : List Nat), snapshot.Nodup → x ∈ snapshot →
      fanout snapshot current [x] m
        = (current.erase x,
           (snapshot.filter (fun c => c ≠ x)).map (fun c => (c, m)),
           if x ∈ current then [x] else []) := by
  intro snapshot
  induction snapshot with
  | nil => intro current _ hx; cases hx
  | cons a rest ih =>
    intro current hnd hx
    rcases List.mem_cons.mp hx with rfl | hxr
    · have hxnr : x ∉ rest := (List.nodup_cons.mp hnd).1
      have hall : ∀ a ∈ rest, a ≠ x := fun a ha h => hxnr (h ▸ ha)
      by_cases hcur : x ∈ current
      · simp only [fanout, if_pos (List.mem_singleton_self x), if_pos hcur,
          fanout_all_deliver rest _ hxnr]
        simp only [hcur, if_pos, List.filter_cons, decide_not, hcur]
        rw [List.filter_eq_self.mpr fun a ha => by simp [hall a ha]]
        simp
      · simp only [fanout, if_pos (List.mem_singleton_self x), if_neg hcur,
          fanout_all_deliver rest _ hxnr]
        simp only [hcur, if_neg, List.filter_cons, decide_not,
          List.erase_of_not_mem hcur]
        rw [List.filter_eq_self.mpr fun a ha => by simp [hall a ha]]
        simp
    · have hax : a ≠ x := fun h => (List.nodup_cons.mp hnd).1 (h ▸ hxr)
      have hamem : a ∉ [x] := by simp [hax]
      simp only [fanout, if_neg hamem,
        ih _ (List.nodup_cons.mp hnd).2 hxr]
      simp [hax]

/-- C3: in a fan-out of one upstream message where the write to exactly one
client `x` fails, that client alone is removed from the live list and its
socket closed, and every other client of the snapshot still receives the
message, in snapshot order. -/
theorem c3_failed_write_isolated (clients : List Nat) (x : Nat) (m : Bytes)
    (hnd : clients.Nodup) (hx : x ∈ clients) :
    (fanout clients clients [x] m).1 = clients.erase x ∧
      (fanout clients clients [x] m).2.1
        = (clients.filter (fun c => c ≠ x)).map (fun c => (c, m)) ∧
      (fanout clients clients [x] m).2.2 = [x] := by
  rw [fanout_single_failure clients clients hnd hx]
  exact ⟨rfl, rfl, by simp [hx]⟩

/-- Witness for C3: three clients, client 2's write fails. -/
theorem c3_failed_write_isolated_witness :
    (fanout [1, 2, 3] [1, 2, 3] [2] [5]).1 = ([1, 2, 3] : List Nat).erase 2 ∧
      (fanout [1, 2, 3] [1, 2, 3] [2] [5]).2.1
        = (([1, 2, 3] : List Nat).filter (fun c => c ≠ 2)).map
            (fun c => (c, ([5] : Bytes))) ∧
      (fanout [1, 2, 3] [1, 2, 3] [2] [5]).2.2 = [2] :=
  c3_failed_write_isolated [1, 2, 3] 2 [5] (by decide) (by decide)

/-- C8: the operations on `self.clients` preserve "each connection appears at
most once": `append` of a fresh socket, the guarded removal in
`handle_client`'s `finally`, and the fan-out's pruning all keep the list
duplicate-free; the guarded removal is idempotent; and removing an absent
connection is a no-op (no `ValueError` escapes, thanks to the membership
guard). -/
theorem c8_client_set_invariant (l : List Nat) (c : Nat) :
    (c ∉ l → l.Nodup → (register_client l c).Nodup) ∧
      (l.Nodup → (handle_client_cleanup l c).Nodup) ∧
      (∀ snapshot failing m, l.Nodup →
        ((fanout snapshot l failing m).1).Nodup) ∧
      (l.Nodup →
        handle_client_cleanup (handle_client_cleanup l c) c
          = handle_client_cleanup l c) ∧
      (c ∉ l → handle_client_cleanup l c = l) := by
  refine ⟨?_, ?_, ?_, ?_, ?_⟩
  · intro hc hnd
    simp [register_client, List.nodup_append, hnd, hc]
  · intro hnd
    by_cases hc : c ∈ l
    · simpa [handle_client_cleanup, hc] using hnd.erase c
    · simpa [handle_client_cleanup, hc] using hnd
  · intro snapshot failing m hnd
    exact fanout_nodup snapshot l failing hnd
  · intro hnd
    by_cases hc : c ∈ l
    · have hne : c ∉ l.erase c := fun h => ((hnd.mem_erase_iff).mp h).1 rfl
      simp [handle_client_cleanup, hc, hne]
    · simp [handle_client_cleanup, hc]
  · intro hc
    simp [handle_client_cleanup, hc]

/-- Witness for C8 on a concrete two-element client list. -/
theorem c8_client_set_invariant_witness :
    (register_client [1, 2] 3).Nodup ∧
      (handle_client_cleanup [1, 2] 2).Nodup ∧
      ((fanout [1, 2] [1, 2] [2] [5]).1).Nodup ∧
      handle_client_cleanup (handle_client_cleanup [1, 2] 2) 2
        = handle_client_cleanup [1, 2] 2 ∧
      handle_client_cleanup [1, 2] 3 = [1, 2] :=
  ⟨(c8_client_set_invariant [1, 2] 3).1 (by decide) (by decide),
   (c8_client_set_invariant [1, 2] 2).2.1 (by decide),
   (c8_client_set_invariant [1, 2] 2).2.2.1 [1, 2] [2] [5] (by decide),
   (c8_client_set_invariant [1, 2] 2).2.2.2.1 (by decide),
   (c8_client_set_invariant [1, 2] 3).2.2.2.2 (by decide)⟩

/-- A fan-out round delivers the message to every snapshot member whose
write does not fail. -/
theorem fanout_mem_delivery {c : Nat} {m : Bytes} :
    ∀ (snapshot current failing : List Nat), c ∈ snapshot → c ∉ failing →
      (c, m) ∈ (fanout snapshot current failing m).2.1 := by
  intro snapshot
  induction snapshot with
  | nil => intro current failing hc _; cases hc
  | cons a rest ih =>
    intro current failing hc hf
    rcases List.mem_cons.mp hc with rfl | hcr
    · simp only [fanout, if_neg hf]
      exact List.mem_cons_self _ _
    · by_cases ha : a ∈ failing
      · by_cases hcur : a ∈ current
        · simp only [fanout, if_pos ha, if_pos hcur]
          exact ih _ _ hcr hf
        · simp only [fanout, if_pos ha, if_neg hcur]
          exact ih _ _ hcr hf
      · simp only [fanout, if_neg ha]
        exact List.mem_cons_of_mem _ (ih _ _ hcr hf)

/-- C9: in the cooperative interleaving model (registration-plus-loop-start
and one whole fan-out round are single atomic actions, since neither block
contains an `await`), a client is a member of the live list immediately after
its registration action, and every fan-out action that executes after the
registration delivers its message to that client (unless that client's own
write fails): no interleaving leaves a registered client ineligible, and no
fan-out skips a registered client. -/
theorem c9_registration_fanout_atomicity (init : TraceState)
    (pre : List BridgeAction) (c : Nat) (m : Bytes) (failing : List Nat) :
    c ∈ (runTrace init (pre ++ [.register c])).clients ∧
      (c ∈ (runTrace init pre).clients → c ∉ failing →
        (c, m) ∈ (runTrace init (pre ++ [.fanoutMsg m failing])).deliveries) := by
  constructor
  · simp [runTrace, List.foldl_append, stepAction, register_client]
  · intro hc hf
    simp only [runTrace, List.foldl_append, List.foldl_cons,
      List.foldl_nil] at hc ⊢
    simp only [stepAction, List.mem_append]
    exact Or.inr (fanout_mem_delivery _ _ failing hc hf)

/-- Witness for C9: after registering clients 1 and 2, a fan-out of `[5]`
whose write to client 1 fails still reaches the just-registered client 2. -/
theorem c9_registration_fanout_atomicity_witness :
    2 ∈ (runTrace ⟨[], []⟩ ([.register 1] ++ [.register 2])).clients ∧
      (2, ([5] : Bytes)) ∈ (runTrace ⟨[], []⟩
        ([.register 1, .register 2] ++ [.fanoutMsg [5] [1]])).deliveries :=
  ⟨(c9_registration_fanout_atomicity ⟨[], []⟩ [.register 1] 2 [5] [1]).1,
   (c9_registration_fanout_atomicity ⟨[], []⟩ [.register 1, .register 2]
      2 [5] [1]).2 (by decide) (by decide)⟩

/-- C2 evaluated at the failing scenario: with the bridge running, two
clients connected and every loop alive, the `ConnectionClosed` branch of
`websocket_forwarder` only ends the fan-out loop.  The running flag stays
true, the client list is untouched, the accept loop's `while self.running`
condition still holds (the listener keeps accepting), the client loops'
`while self.running and self.websocket` condition still holds, and the
fan-out loop exits without closing or pruning any client — the claimed full
shutdown does not happen. -/
theorem c2_connection_closed_no_shutdown :
    (forwarder_on_connection_closed ⟨true, true, true, true, [1, 2]⟩).running
        = true ∧
      (forwarder_on_connection_closed ⟨true, true, true, true, [1, 2]⟩).clients
        = [1, 2] ∧
      listener_polls_again
          (forwarder_on_connection_closed ⟨true, true, true, true, [1, 2]⟩)
        = true ∧
      client_loop_continues
          (forwarder_on_connection_closed ⟨true, true, true, true, [1, 2]⟩)
        = true ∧
      websocket_forwarder [1, 2] [.closed]
        = ⟨[1, 2], [], [], true⟩ :=
  ⟨rfl, rfl, rfl, rfl, rfl⟩

/-- C6: `stop_bridge` is idempotent: a second call leaves the state exactly
as the first left it and releases no resource at all (the second client-loop
iterates an empty list, and closing the already-closed server socket and
websocket is a no-op); no close raises, as every close in lines 186-205 is
wrapped in `try/except: pass`. -/
theorem c6_stop_bridge_idempotent (s : StopState) :
    (stop_bridge (stop_bridge s).1).1 = (stop_bridge s).1 ∧
      (stop_bridge (stop_bridge s).1).2 = ⟨[], false, false⟩ := by
  obtain ⟨running, serverSet, serverClosed, clients, closedSocks, wsSet,
    wsClosed⟩ := s
  cases serverSet <;> cases serverClosed <;> cases wsSet <;> cases wsClosed <;>
    simp [stop_bridge, closeClientSocks]

/-- Every socket handed to the close loop ends up recorded as closed. -/
theorem mem_closeClientSocks :
    ∀ (toClose closedSo : List Nat) (c : Nat), c ∈ toClose ∨ c ∈ closedSo →
      c ∈ (closeClientSocks closedSo toClose).1 := by
  intro toClose
  induction toClose with
  | nil =>
    intro closedSo c h
    rcases h with h | h
    · cases h
    · exact h
  | cons a rest ih =>
    intro closedSo c h
    by_cases ha : a ∈ closedSo
    · simp only [closeClientSocks, if_pos ha]
      apply ih
      rcases h with h | h
      · rcases List.mem_cons.mp h with rfl | hr
        · exact Or.inr ha
        · exact Or.inl hr
      · exact Or.inr h
    · simp only [closeClientSocks, if_neg ha]
      apply ih
      rcases h with h | h
      · rcases List.mem_cons.mp h with rfl | hr
        · exact Or.inr (List.mem_cons_self _ _)
        · exact Or.inl hr
      · exact Or.inr (List.mem_cons_of_mem _ h)

/-- C10: after `stop_bridge` returns, the client list is empty, the running
flag is false, and a close was attempted on every previously registered
client socket. -/
theorem c10_stop_bridge_stopped_state (s : StopState) :
    (stop_bridge s).1.clients = [] ∧ (stop_bridge s).1.running = false ∧
      ∀ c ∈ s.clients, c ∈ (stop_bridge s).1.closedSocks := by
  refine ⟨rfl, rfl, fun c hc => ?_⟩
  exact mem_closeClientSocks s.clients s.closedSocks c (Or.inl hc)

/-- Witness for C10 at a running bridge with one client. -/
theorem c10_stop_bridge_stopped_state_witness :
    (stop_bridge ⟨true, true, false, [5], [], true, false⟩).1.clients = [] ∧
      (stop_bridge ⟨true, true, false, [5], [], true, false⟩).1.running
        = false ∧
      5 ∈ (stop_bridge ⟨true, true, false, [5], [], true, false⟩).1.closedSocks :=
  ⟨(c10_stop_bridge_stopped_state ⟨true, true, false, [5], [], true, false⟩).1,
   (c10_stop_bridge_stopped_state
      ⟨true, true, false, [5], [], true, false⟩).2.1,
   (c10_stop_bridge_stopped_state
      ⟨true, true, false, [5], [], true, false⟩).2.2 5 (by decide)⟩

end WSBridge
